import Mathlib

/-!
Shallow embedding of the record-keeping backend (files `backend/database.py`,
`backend/schemas.py`, `backend/main.py`).

Modelling conventions:
* A MongoDB document / Python dict is an insertion-ordered association list
  `Doc := List (String × Value)`; the dicts produced by the program always
  have pairwise-distinct keys, and every operation below (`dset`, `dsetAll`,
  `dremove`) mirrors Python dict assignment / `dict.update` / `dict.pop`
  on that class of lists.
* Python / BSON runtime values are the inductive `Value`: strings, numbers
  (`ℚ`, covering the `int`/`float` amounts the program manipulates exactly),
  ObjectIds (abstracted as `Nat`), `datetime` instants (an abstract clock
  tick `Nat`), calendar dates, `None`, and lists.
* `datetime.utcnow()` is modelled by threading the current instant `now : Nat`
  through each operation.
* The bson codec `str(ObjectId)` / `ObjectId(str)` is external library code;
  it is modelled by a decimal numeral codec (`oidStr` / `parseOid`), which is
  faithful to what the program relies on: a bijection between identifiers and
  their string forms, with `ObjectId(s)` failing on malformed strings.
-/

inductive Value where
  | vNull : Value
  | vStr : String → Value
  | vNum : ℚ → Value
  | vOid : Nat → Value
  | vTime : Nat → Value
  | vDate : Nat → Nat → Nat → Value
  | vList : List Value → Value

abbrev Doc := List (String × Value)

mutual

/-- Equality test on runtime values (Python `==` on the values the program stores). -/
def valueBeq : Value → Value → Bool
  | .vNull, .vNull => true
  | .vStr a, .vStr b => a == b
  | .vNum a, .vNum b => a == b
  | .vOid a, .vOid b => a == b
  | .vTime a, .vTime b => a == b
  | .vDate a b c, .vDate x y z => a == x && b == y && c == z
  | .vList a, .vList b => valueListBeq a b
  | _, _ => false

def valueListBeq : List Value → List Value → Bool
  | [], [] => true
  | x :: xs, y :: ys => valueBeq x y && valueListBeq xs ys
  | _, _ => false

end

/-- Python `dict.get(k)` / `d[k]` lookup: value of the first (unique) binding of `k`. -/
def dget : Doc → String → Option Value
  | [], _ => none
  | (k', v) :: rest, k => if k' = k then some v else dget rest k

/-- Python dict assignment `d[k] = v`: replace the binding in place, or append a new one. -/
def dset : Doc → String → Value → Doc
  | [], k, v => [(k, v)]
  | (k', v') :: rest, k, v =>
      if k' = k then (k', v) :: rest else (k', v') :: dset rest k v

/-- Python `d.update(u)`: assign every binding of `u` into `d`, in order. -/
def dsetAll (d : Doc) (u : Doc) : Doc :=
  u.foldl (fun acc kv => dset acc kv.1 kv.2) d

/-- Python `d.pop(k, None)` (drop the binding of `k`; dict keys are unique). -/
def dremove : Doc → String → Doc
  | [], _ => []
  | (k', v) :: rest, k =>
      if k' = k then dremove rest k else (k', v) :: dremove rest k

/-- Digit character, for the identifier codec. -/
def digitChar (d : Nat) : Char := Char.ofNat (48 + d)

/-- Decimal digits of `n`, most significant first (structural recursion on a
fuel bound so that the kernel can evaluate it; any `fuel > n` is enough). -/
def natCharsAux : Nat → Nat → List Char
  | 0, _ => []
  | fuel + 1, n =>
      if n < 10 then [digitChar n]
      else natCharsAux fuel (n / 10) ++ [digitChar (n % 10)]

def natChars (n : Nat) : List Char := natCharsAux (n + 1) n

/-- Model of `str(_id)` on an ObjectId: the identifier's decimal numeral. -/
def oidStr (n : Nat) : String := ⟨natChars n⟩

def parseDigits : List Char → Nat → Option Nat
  | [], acc => some acc
  | c :: cs, acc =>
      if c.isDigit then parseDigits cs (acc * 10 + (c.toNat - 48)) else none

/-- Model of `bson.ObjectId(doc_id)`: parses the identifier's string form and
fails (the library raises `InvalidId`) on a malformed string. -/
def parseOid (s : String) : Option Nat :=
  if s.data.isEmpty then none else parseDigits s.data 0

/-- `str()` of the values that can sit in the `_id` slot of a stored document
(always an ObjectId for documents created by this program). -/
def valueStr : Value → String
  | .vOid n => oidStr n
  | .vStr s => s
  | _ => ""

/-- `database.serialize_document`: `if not doc: return doc`; pop `_id`; when it was
present and non-`None`, expose it as the string field `id`. -/
def serialize_document (d : Doc) : Doc :=
  if d.isEmpty then d
  else
    match dget d "_id" with
    | none => d
    | some Value.vNull => dremove d "_id"
    | some i => dset (dremove d "_id") "id" (Value.vStr (valueStr i))

/-- One Mongo collection: stored documents in natural (insertion) order, plus the
generator for the next fresh ObjectId. -/
structure Collection where
  docs : List Doc
  nextId : Nat

/-- The Mongo query `{"_id": ObjectId(oid)}` as a predicate on a stored document. -/
def hasOid (oid : Nat) (d : Doc) : Bool :=
  match dget d "_id" with
  | some (Value.vOid n) => n == oid
  | _ => false

/-- `col.find_one({"_id": oid})`: first stored document with that identifier. -/
def find_one (c : Collection) (oid : Nat) : Option Doc :=
  c.docs.find? (hasOid oid)

/-- `col.insert_one(data)`: the server stores the document with a fresh ObjectId in
the `_id` slot (payload dicts never carry `_id` themselves). -/
def insert_one (c : Collection) (d : Doc) : Nat × Collection :=
  (c.nextId, ⟨c.docs ++ [("_id", Value.vOid c.nextId) :: d], c.nextId + 1⟩)

/-- `col.update_one({"_id": oid}, {"$set": upd})`: `$set` every binding of `upd`
on the first matching document; no match is a no-op. -/
def update_one (oid : Nat) (upd : Doc) : List Doc → List Doc
  | [] => []
  | d :: rest =>
      if hasOid oid d then dsetAll d upd :: rest else d :: update_one oid upd rest

/-- `col.delete_one({"_id": oid})`: remove the first matching document, returning
the deleted count. -/
def delete_one (oid : Nat) : List Doc → Nat × List Doc
  | [] => (0, [])
  | d :: rest =>
      if hasOid oid d then (1, rest)
      else
        let (n, r) := delete_one oid rest
        (n, d :: r)

/-- `database.create_document`: stamp `created_at`/`updated_at` with the current
instant, insert, re-read by the generated identifier, normalize. -/
def create_document (c : Collection) (now : Nat) (data : Doc) : Option Doc × Collection :=
  let data2 := dsetAll data [("created_at", Value.vTime now), ("updated_at", Value.vTime now)]
  let oc := insert_one c data2
  ((find_one oc.2 oc.1).map serialize_document, oc.2)

/-- `database.update_document`: stamp `updated_at`, `$set` the given fields on the
document matching `doc_id`, re-read, normalize.  A malformed `doc_id` makes
`ObjectId(doc_id)` raise, modelled by `.error`. -/
def update_document (c : Collection) (now : Nat) (doc_id : String) (updates : Doc) :
    Except String (Option Doc × Collection) :=
  match parseOid doc_id with
  | none => .error "InvalidId"
  | some oid =>
      let updates2 := dsetAll updates [("updated_at", Value.vTime now)]
      let c2 : Collection := ⟨update_one oid updates2 c.docs, c.nextId⟩
      .ok ((find_one c2 oid).map serialize_document, c2)

/-- `database.delete_document`: delete by identifier; report whether exactly one
document was removed. -/
def delete_document (c : Collection) (doc_id : String) :
    Except String (Bool × Collection) :=
  match parseOid doc_id with
  | none => .error "InvalidId"
  | some oid =>
      let nr := delete_one oid c.docs
      .ok (nr.1 == 1, ⟨nr.2, c.nextId⟩)

/-- `database.get_document`: find by identifier; normalize when found. -/
def get_document (c : Collection) (doc_id : String) : Except String (Option Doc) :=
  match parseOid doc_id with
  | none => .error "InvalidId"
  | some oid => .ok ((find_one c oid).map serialize_document)

instance {ε α : Type} [DecidableEq ε] [DecidableEq α] : DecidableEq (Except ε α) := fun a b =>
  match a, b with
  | .error e, .error f => decidable_of_iff (e = f) (by simp)
  | .ok x, .ok y => decidable_of_iff (x = y) (by simp)
  | .error _, .ok _ => .isFalse (by simp)
  | .ok _, .error _ => .isFalse (by simp)

/-! ### `database.get_documents` and the Mongo sort order -/

/-- Key type used to model the BSON total order on stored values:
type rank, then a numeric component, then a lexicographic `Nat`-sequence
component (string code points, date triples, identifiers, instants). -/
abbrev VKey := Lex (Nat × Lex (ℚ × List Nat))

/-- Sort key of a stored value.  Cross-type comparisons follow the BSON type
ranking; within a type the natural value order is used (array-vs-array
comparison, which the program never exercises, ties). -/
def valueKey : Value → VKey
  | .vNull => toLex (0, toLex (0, []))
  | .vNum q => toLex (1, toLex (q, []))
  | .vStr s => toLex (2, toLex (0, s.data.map Char.toNat))
  | .vList _ => toLex (3, toLex (0, []))
  | .vOid n => toLex (4, toLex (0, [n]))
  | .vTime t => toLex (5, toLex (0, [t]))
  | .vDate y m d => toLex (6, toLex (0, [y, m, d]))

/-- Sort key of a document under `sort=[(field, dir)]`; a document missing the
field sorts as `None`, as in Mongo. -/
def docKey (field : String) (d : Doc) : VKey :=
  valueKey ((dget d field).getD Value.vNull)

/-- Document comparison for `cursor.sort([(field, dir)])`: ascending on the
field's key, flipped for a negative direction. -/
def docLe (field : String) (dir : Int) (a b : Doc) : Prop :=
  if dir < 0 then docKey field b ≤ docKey field a
  else docKey field a ≤ docKey field b

instance (field : String) (dir : Int) : DecidableRel (docLe field dir) := fun a b => by
  unfold docLe; infer_instance

instance (field : String) (dir : Int) : IsTotal Doc (docLe field dir) := by
  constructor
  intro a b
  unfold docLe
  split
  · exact le_total _ _
  · exact le_total _ _

instance (field : String) (dir : Int) : IsTrans Doc (docLe field dir) := by
  constructor
  intro a b c hab hbc
  unfold docLe at hab hbc ⊢
  by_cases h : dir < 0
  · simp only [if_pos h] at hab hbc ⊢
    exact le_trans hbc hab
  · simp only [if_neg h] at hab hbc ⊢
    exact le_trans hab hbc

/-- The Mongo filter document as a predicate (equality on each listed field);
the empty filter `{}` matches every document. -/
def matchesFilter (flt : Doc) (d : Doc) : Bool :=
  flt.all (fun kv =>
    match dget d kv.1 with
    | some v => valueBeq v kv.2
    | none => false)

/-- `database.get_documents(collection, filter_dict=None, limit=1000, sort=None)`:
select the matching documents, sort them when a sort key is given, cap at
`limit` when `limit` is truthy (Python `if limit:` — a limit of `0` applies no
cap), and normalize each.  `filter_dict or {}` makes `None` and `{}` coincide:
both are the empty filter. -/
def get_documents (c : Collection) (flt : Doc := []) (limit : Nat := 1000)
    (sort : Option (String × Int) := none) : List Doc :=
  let cur := c.docs.filter (matchesFilter flt)
  let cur :=
    match sort with
    | some fd => List.insertionSort (docLe fd.1 fd.2) cur
    | none => cur
  let cur := if limit ≠ 0 then cur.take limit else cur
  cur.map serialize_document

/-! ### `schemas.py`: payloads and validation -/

/-- A parsed calendar date (`datetime.date`). -/
structure PyDate where
  year : Nat
  month : Nat
  day : Nat
deriving DecidableEq

/-- The fields of `schemas.Activity` after type parsing. -/
structure ActivityPayload where
  date : PyDate
  name : String
  category : String
  duration_hours : ℚ
  output : Option String
  notes : Option String
  file_ids : Option (List String)

/-- The fields of `schemas.Finance` after type parsing (`income`/`expense`
default to `0` when omitted). -/
structure FinancePayload where
  date : PyDate
  category : String
  income : ℚ
  expense : ℚ
  notes : Option String

def optStrVal : Option String → Value
  | none => Value.vNull
  | some s => Value.vStr s

def optListVal : Option (List String) → Value
  | none => Value.vNull
  | some l => Value.vList (l.map Value.vStr)

def dateVal (d : PyDate) : Value := Value.vDate d.year d.month d.day

/-- `payload.dict()` for an Activity: the payload's fields in declaration order
(pydantic includes `None`-valued optionals). -/
def activityDict (p : ActivityPayload) : Doc :=
  [("date", dateVal p.date),
   ("name", Value.vStr p.name),
   ("category", Value.vStr p.category),
   ("duration_hours", Value.vNum p.duration_hours),
   ("output", optStrVal p.output),
   ("notes", optStrVal p.notes),
   ("file_ids", optListVal p.file_ids)]

/-- `payload.dict()` for a Finance record. -/
def financeDict (p : FinancePayload) : Doc :=
  [("date", dateVal p.date),
   ("category", Value.vStr p.category),
   ("income", Value.vNum p.income),
   ("expense", Value.vNum p.expense),
   ("notes", optStrVal p.notes)]

/-- The six enumerated Activity categories, in the order they appear in the
validation regex of `schemas.Activity.category`. -/
def activityCategories : List String :=
  ["administration", "academics", "finance", "social", "community service", "documentation"]

/-- Python regex `$` (no MULTILINE): it matches at the end of the string, or
just before a newline that is the last character. -/
def dollarTail (cs : List Char) : Bool := cs == [] || cs == ['\n']

/-- `re.match` of the anchored alternation-of-literals pattern
`^(a₁|a₂|…)$` against `s` (how pydantic v1 applies `Field(regex=...)`):
some alternative is a prefix of `s` and `$` matches right after it. -/
def reMatchLiteralAlts (alts : List String) (s : String) : Bool :=
  alts.any (fun a =>
    s.data.take a.data.length == a.data && dollarTail (s.data.drop a.data.length))

/-- Validation of `schemas.Activity` (beyond type parsing): `name` at most 200
characters, `category` accepted by the regex, `duration_hours ≥ 0`. -/
def validActivity (p : ActivityPayload) : Bool :=
  decide (p.name.length ≤ 200)
    && reMatchLiteralAlts activityCategories p.category
    && decide (0 ≤ p.duration_hours)

/-- Validation of `schemas.Finance`: `category` at most 100 characters (free
text), `income ≥ 0`, `expense ≥ 0`. -/
def validFinance (p : FinancePayload) : Bool :=
  decide (p.category.length ≤ 100)
    && decide (0 ≤ p.income)
    && decide (0 ≤ p.expense)

/-! ### `main.py`: endpoints -/

/-- `POST /activities`: the framework validates the payload before the handler
runs; an invalid payload is rejected (`none`) without any storage call, a valid
one is passed to `create_document("activity", payload.dict())`. -/
def create_activity (c : Collection) (now : Nat) (p : ActivityPayload) :
    Option Doc × Collection :=
  if validActivity p then create_document c now (activityDict p) else (none, c)

/-- `POST /finances`, same pattern. -/
def create_finance (c : Collection) (now : Nat) (p : FinancePayload) :
    Option Doc × Collection :=
  if validFinance p then create_document c now (financeDict p) else (none, c)

/-- `PUT /activities/{id}`: validate, then
`update_document("activity", id, payload.dict())`; an invalid payload is
rejected without any storage call. -/
def update_activity (c : Collection) (now : Nat) (id : String) (p : ActivityPayload) :
    Except String (Option Doc × Collection) :=
  if validActivity p then update_document c now id (activityDict p) else .ok (none, c)

/-- Python truthiness of an optional integer query parameter: `None` and `0`
are both falsy. -/
def truthy : Option Int → Bool
  | none => false
  | some n => !(n == 0)

/-- `datetime.fromisoformat(str(d["date"]))` followed by `.year`/`.month`: the
year and month of a stored record's `date` field.  (For documents whose `date`
is not a date value `main.py` would raise; such documents are never produced by
the program, and the extractor totalizes that case as `(0, 0)`.) -/
def docYearMonth (d : Doc) : Nat × Nat :=
  match dget d "date" with
  | some (Value.vDate y m _) => (y, m)
  | _ => (0, 0)

/-- The per-record filter condition of `list_activities`/`list_finances`:
`(not year or d_date.year == year) and (not month or d_date.month == month)`. -/
def periodKeep (month year : Option Int) (d : Doc) : Bool :=
  (!truthy year || ((docYearMonth d).1 : Int) == year.getD 0)
    && (!truthy month || ((docYearMonth d).2 : Int) == month.getD 0)

/-- `GET /activities`: load all documents (empty filter, default limit 1000,
sorted ascending by `date`), then filter by month/year in process only when
`month or year` is truthy. -/
def list_activities (c : Collection) (month year : Option Int) : List Doc :=
  let docs := get_documents c [] 1000 (some ("date", 1))
  if truthy month || truthy year then docs.filter (periodKeep month year) else docs

/-- `GET /finances`: identical shape (its `get_documents` call leaves the filter
at its `None` default, which `filter_dict or {}` turns into the empty filter). -/
def list_finances (c : Collection) (month year : Option Int) : List Doc :=
  let docs := get_documents c [] 1000 (some ("date", 1))
  if truthy month || truthy year then docs.filter (periodKeep month year) else docs

/-! ### `main.py`: recap and file download -/

/-- `by_cat[a["category"]] = by_cat.get(a["category"], 0) + 1` on an
insertion-ordered dict. -/
def bump (m : List (String × Nat)) (k : String) : List (String × Nat) :=
  match m with
  | [] => [(k, 1)]
  | (k', v) :: rest => if k' = k then (k', v + 1) :: rest else (k', v) :: bump rest k

/-- `a["category"]` of a stored activity document (always a string there). -/
def docCategory (d : Doc) : String :=
  match dget d "category" with
  | some (Value.vStr s) => s
  | _ => ""

/-- `x.get(k, 0)` for the numeric amount fields of a finance document. -/
def docAmount (d : Doc) (k : String) : ℚ :=
  match dget d k with
  | some (Value.vNum q) => q
  | _ => 0

/-- The aggregate fields of `main.RecapResponse`.  (The generated `summary`
string is presentation-only rendering of the same aggregates and is not part
of the embedding.) -/
structure RecapResponse where
  month : Int
  year : Int
  total_activities : Nat
  activities_by_category : List (String × Nat)
  total_income : ℚ
  total_expense : ℚ
  net : ℚ
deriving DecidableEq

/-- `GET /recap?month=&year=`: list both collections filtered by the given
month/year, histogram the activities by category, sum income and expense,
and report `net = income - expense`. -/
def monthly_recap (cAct cFin : Collection) (month year : Int) : RecapResponse :=
  let acts := list_activities cAct (some month) (some year)
  let fins := list_finances cFin (some month) (some year)
  let by_cat := acts.foldl (fun m a => bump m (docCategory a)) []
  let total_income := fins.foldl (fun s f => s + docAmount f "income") 0
  let total_expense := fins.foldl (fun s f => s + docAmount f "expense") 0
  ⟨month, year, acts.length, by_cat, total_income, total_expense,
    total_income - total_expense⟩

/-- `doc.get("content_type", "application/octet-stream")`. -/
def docContentType (d : Doc) : String :=
  match dget d "content_type" with
  | some (Value.vStr s) => s
  | _ => "application/octet-stream"

/-- `GET /files/{file_id}`: look the File record up; no record → HTTP 404
`"File not found"`; record present but its stored path absent from disk →
HTTP 404 `"File missing on disk"`; otherwise stream the file.  The filesystem
is modelled by the list of existing paths; an unparsable id (or a record whose
`url` is not a string) escapes as an unhandled exception, i.e. a 500. -/
def get_file (c : Collection) (fsPaths : List String) (file_id : String) :
    Except (Nat × String) (String × String) :=
  match get_document c file_id with
  | .error e => .error (500, e)
  | .ok none => .error (404, "File not found")
  | .ok (some doc) =>
      match dget doc "url" with
      | some (Value.vStr path) =>
          if fsPaths.contains path then .ok (path, docContentType doc)
          else .error (404, "File missing on disk")
      | _ => .error (500, "TypeError")

/-! ### Derived shapes and concrete states used by the verification -/

/-- Well-formedness of a collection as maintained by the database: every stored
document carries an ObjectId `_id` older than the generator's next value. -/
def Collection.wf (c : Collection) : Prop :=
  ∀ d ∈ c.docs, ∃ n, dget d "_id" = some (Value.vOid n) ∧ n < c.nextId

/-- The stored form of an activity document: server `_id`, the payload fields,
then the two timestamps stamped by `create_document`. -/
def storedActivity (oid : Nat) (p : ActivityPayload) (t0 t1 : Nat) : Doc :=
  ("_id", Value.vOid oid) ::
    (activityDict p ++ [("created_at", Value.vTime t0), ("updated_at", Value.vTime t1)])

/-- The externally visible (serialized) form of an activity document. -/
def activityOut (p : ActivityPayload) (t0 t1 : Nat) (idStr : String) : Doc :=
  activityDict p ++
    [("created_at", Value.vTime t0), ("updated_at", Value.vTime t1),
     ("id", Value.vStr idStr)]

/-- A caller-visible document is properly normalized: no internal `_id` field,
and a string `id` field. -/
def exposesIdOnly (d : Doc) : Prop :=
  dget d "_id" = none ∧ ∃ s, dget d "id" = some (Value.vStr s)

/-- Total count registered in a category histogram. -/
def sumCounts (m : List (String × Nat)) : Nat := (m.map Prod.snd).sum

/-- March-2024 activity payload with category `"academics"`. -/
def marAct (day : Nat) : ActivityPayload :=
  ⟨⟨2024, 3, day⟩, "study", "academics", 1, none, none, none⟩

/-- March-2024 finance payload with income 100.0 and expense 40.0. -/
def marFin : FinancePayload := ⟨⟨2024, 3, 10⟩, "ops", 100, 40, none⟩

/-- Activity collection holding exactly the two March-2024 academics records. -/
def actsState : Collection :=
  (create_activity (create_activity ⟨[], 0⟩ 0 (marAct 5)).2 0 (marAct 20)).2

/-- Finance collection holding exactly the one March-2024 record. -/
def finsState : Collection := (create_finance ⟨[], 0⟩ 0 marFin).2

/-- The serialized form of the two stored March activities. -/
def marActDoc (day : Nat) (idStr : String) : Doc :=
  [("date", Value.vDate 2024 3 day), ("name", Value.vStr "study"),
   ("category", Value.vStr "academics"), ("duration_hours", Value.vNum 1),
   ("output", Value.vNull), ("notes", Value.vNull), ("file_ids", Value.vNull),
   ("created_at", Value.vTime 0), ("updated_at", Value.vTime 0),
   ("id", Value.vStr idStr)]

/-- The serialized form of the stored March finance record. -/
def marFinDoc : Doc :=
  [("date", Value.vDate 2024 3 10), ("category", Value.vStr "ops"),
   ("income", Value.vNum 100), ("expense", Value.vNum 40), ("notes", Value.vNull),
   ("created_at", Value.vTime 0), ("updated_at", Value.vTime 0),
   ("id", Value.vStr "0")]

/-- Activity collection holding exactly one April-2024 record. -/
def aprState : Collection :=
  (create_activity ⟨[], 0⟩ 0 ⟨⟨2024, 4, 5⟩, "study", "academics", 1, none, none, none⟩).2

/-- File collection holding one File record whose stored path is `/tmp/uploads/x`. -/
def fileState : Collection :=
  (create_document ⟨[], 0⟩ 0
    [("filename", Value.vStr "a.txt"), ("content_type", Value.vStr "text/plain"),
     ("url", Value.vStr "/tmp/uploads/x"), ("size", Value.vNum 5)]).2

/-- The serialized form of the April-2024 record stored in `aprState`. -/
def aprDoc : Doc :=
  [("date", Value.vDate 2024 4 5), ("name", Value.vStr "study"),
   ("category", Value.vStr "academics"), ("duration_hours", Value.vNum 1),
   ("output", Value.vNull), ("notes", Value.vNull), ("file_ids", Value.vNull),
   ("created_at", Value.vTime 0), ("updated_at", Value.vTime 0),
   ("id", Value.vStr "0")]

/-- The serialized form of the File record stored in `fileState`. -/
def fileDoc : Doc :=
  [("filename", Value.vStr "a.txt"), ("content_type", Value.vStr "text/plain"),
   ("url", Value.vStr "/tmp/uploads/x"), ("size", Value.vNum 5),
   ("created_at", Value.vTime 0), ("updated_at", Value.vTime 0),
   ("id", Value.vStr "0")]

/-- Collection holding two documents with identifiers 9 and 10 (in that
insertion order). -/
def tieState : Collection :=
  ⟨[[("_id", Value.vOid 9), ("name", Value.vStr "a")],
    [("_id", Value.vOid 10), ("name", Value.vStr "b")]], 11⟩

/-- The serialized forms of the two documents of `tieState`. -/
def tieDoc9 : Doc := [("name", Value.vStr "a"), ("id", Value.vStr "9")]

def tieDoc10 : Doc := [("name", Value.vStr "b"), ("id", Value.vStr "10")]

/-! ## Helper lemmas -/

theorem digitChar_isDigit : ∀ d, d < 10 → (digitChar d).isDigit = true := by decide

theorem digitChar_toNat : ∀ d, d < 10 → (digitChar d).toNat = 48 + d := by decide

theorem parseDigits_append (cs rest : List Char) (acc : Nat) :
    parseDigits (cs ++ rest) acc =
      match parseDigits cs acc with
      | none => none
      | some v => parseDigits rest v := by
  induction cs generalizing acc with
  | nil => rfl
  | cons c cs ih =>
      simp only [List.cons_append, parseDigits]
      by_cases h : c.isDigit
      · simp only [if_pos h]; exact ih _
      · simp only [if_neg h]

theorem parseDigits_natCharsAux (fuel : Nat) :
    ∀ n, n < fuel → ∀ acc,
      parseDigits (natCharsAux fuel n) acc =
        some (acc * 10 ^ (natCharsAux fuel n).length + n) := by
  induction fuel with
  | zero => intro n hn; omega
  | succ fuel ih =>
      intro n hn acc
      by_cases h : n < 10
      · simp only [natCharsAux, if_pos h, parseDigits, digitChar_isDigit n h,
          digitChar_toNat n h, if_true, List.length_singleton, pow_one]
        congr 2
        omega
      · have hdiv : n / 10 < fuel := by
          have : n / 10 < n := Nat.div_lt_self (by omega) (by omega)
          omega
        simp only [natCharsAux, if_neg h, parseDigits_append, ih (n / 10) hdiv acc]
        have hm : n % 10 < 10 := Nat.mod_lt _ (by omega)
        simp only [parseDigits, digitChar_isDigit _ hm, digitChar_toNat _ hm,
          if_true, List.length_append, List.length_singleton]
        congr 1
        have hp : (10:ℕ) ^ ((natCharsAux fuel (n / 10)).length + 1) =
            10 ^ (natCharsAux fuel (n / 10)).length * 10 := by ring
        rw [hp, ← mul_assoc]
        omega

theorem natCharsAux_ne_nil (fuel n : Nat) (h : 0 < fuel) : natCharsAux fuel n ≠ [] := by
  match fuel with
  | f + 1 =>
      simp only [natCharsAux]
      by_cases hn : n < 10
      · simp [hn]
      · simp [hn]

/-- The identifier string codec round-trips: `ObjectId(str(_id))` recovers `_id`. -/
theorem parseOid_oidStr (n : Nat) : parseOid (oidStr n) = some n := by
  have hne := natCharsAux_ne_nil (n + 1) n (by omega)
  have hspec := parseDigits_natCharsAux (n + 1) n (by omega) 0
  simp only [parseOid, oidStr, natChars]
  have hemp : (natCharsAux (n + 1) n).isEmpty = false := by
    cases h : natCharsAux (n + 1) n with
    | nil => exact absurd h hne
    | cons a l => rfl
  simp only [hemp, Bool.false_eq_true, if_false]
  simpa using hspec

theorem dget_dset_self (d : Doc) (k : String) (v : Value) : dget (dset d k v) k = some v := by
  induction d with
  | nil => simp [dset, dget]
  | cons kv rest ih =>
      obtain ⟨k', v'⟩ := kv
      by_cases h : k' = k
      · simp [dset, dget, h]
      · simp [dset, dget, h, ih]

theorem dget_dset_ne (d : Doc) (k k' : String) (v : Value) (h : k' ≠ k) :
    dget (dset d k' v) k = dget d k := by
  induction d with
  | nil => simp [dset, dget, h]
  | cons kv rest ih =>
      obtain ⟨k'', v''⟩ := kv
      by_cases h2 : k'' = k'
      · subst h2; simp [dset, dget, h, Ne.symm h]
      · by_cases h3 : k'' = k
        · simp [dset, dget, h2, h3, Ne.symm h]
        · simp [dset, dget, h2, h3, ih]

theorem dget_dremove_self (d : Doc) (k : String) : dget (dremove d k) k = none := by
  induction d with
  | nil => rfl
  | cons kv rest ih =>
      obtain ⟨k', v'⟩ := kv
      by_cases h : k' = k
      · rw [dremove, if_pos h]; exact ih
      · rw [dremove, if_neg h, dget, if_neg h]; exact ih

theorem dget_dremove_ne (d : Doc) (k k' : String) (h : k' ≠ k) :
    dget (dremove d k') k = dget d k := by
  induction d with
  | nil => rfl
  | cons kv rest ih =>
      obtain ⟨k'', v''⟩ := kv
      by_cases h2 : k'' = k'
      · have h4 : k'' ≠ k := by rw [h2]; exact h
        rw [dremove, if_pos h2, dget, if_neg h4]
        exact ih
      · rw [dremove, if_neg h2]
        by_cases h3 : k'' = k
        · rw [dget, if_pos h3, dget, if_pos h3]
        · rw [dget, if_neg h3, dget, if_neg h3]; exact ih

theorem dget_some_ne_nil {d : Doc} {k : String} {v : Value} (h : dget d k = some v) :
    d.isEmpty = false := by
  cases d with
  | nil => simp [dget] at h
  | cons kv rest => rfl

theorem serialize_of_oid {d : Doc} {n : Nat} (h : dget d "_id" = some (Value.vOid n)) :
    serialize_document d = dset (dremove d "_id") "id" (Value.vStr (oidStr n)) := by
  rw [serialize_document, dget_some_ne_nil h]
  simp only [Bool.false_eq_true, if_false, h]
  rfl

theorem exposesIdOnly_serialize {d : Doc} {n : Nat} (h : dget d "_id" = some (Value.vOid n)) :
    exposesIdOnly (serialize_document d) := by
  rw [serialize_of_oid h]
  constructor
  · rw [dget_dset_ne _ _ _ _ (by decide), dget_dremove_self]
  · exact ⟨oidStr n, dget_dset_self _ _ _⟩

theorem serialize_dget_ne (d : Doc) (f : String) (h1 : f ≠ "_id") (h2 : f ≠ "id") :
    dget (serialize_document d) f = dget d f := by
  rw [serialize_document]
  by_cases he : d.isEmpty
  · rw [if_pos he]
  · rw [if_neg he]
    cases hid : dget d "_id" with
    | none => rfl
    | some i =>
        cases i with
        | vNull => exact dget_dremove_ne _ _ _ (Ne.symm h1)
        | vStr s =>
            rw [dget_dset_ne _ _ _ _ (Ne.symm h2)]
            exact dget_dremove_ne _ _ _ (Ne.symm h1)
        | vNum q =>
            rw [dget_dset_ne _ _ _ _ (Ne.symm h2)]
            exact dget_dremove_ne _ _ _ (Ne.symm h1)
        | vOid n =>
            rw [dget_dset_ne _ _ _ _ (Ne.symm h2)]
            exact dget_dremove_ne _ _ _ (Ne.symm h1)
        | vTime t =>
            rw [dget_dset_ne _ _ _ _ (Ne.symm h2)]
            exact dget_dremove_ne _ _ _ (Ne.symm h1)
        | vDate y m dd =>
            rw [dget_dset_ne _ _ _ _ (Ne.symm h2)]
            exact dget_dremove_ne _ _ _ (Ne.symm h1)
        | vList l =>
            rw [dget_dset_ne _ _ _ _ (Ne.symm h2)]
            exact dget_dremove_ne _ _ _ (Ne.symm h1)

theorem dget_of_hasOid {d : Doc} {n : Nat} (h : hasOid n d = true) :
    dget d "_id" = some (Value.vOid n) := by
  unfold hasOid at h
  cases hid : dget d "_id" with
  | none => rw [hid] at h; simp at h
  | some i =>
      cases i <;> rw [hid] at h <;> simp at h
      rw [h]

theorem hasOid_false_of_ne {d : Doc} {n m : Nat} (h : dget d "_id" = some (Value.vOid m))
    (hne : m ≠ n) : hasOid n d = false := by
  unfold hasOid
  rw [h]
  simp [hne]

theorem find_one_eq_none {c : Collection} {oid : Nat}
    (h : ∀ d ∈ c.docs, hasOid oid d = false) : find_one c oid = none := by
  unfold find_one
  rw [List.find?_eq_none]
  intro x hx
  simp [h x hx]

theorem find_one_insert (c : Collection) (hwf : c.wf) (d : Doc) :
    find_one (insert_one c d).2 c.nextId = some (("_id", Value.vOid c.nextId) :: d) := by
  unfold find_one insert_one
  rw [List.find?_append]
  have h1 : c.docs.find? (hasOid c.nextId) = none := by
    rw [List.find?_eq_none]
    intro x hx
    obtain ⟨n, hn, hlt⟩ := hwf x hx
    have hf : hasOid c.nextId x = false := hasOid_false_of_ne hn (by omega)
    simp [hf]
  rw [h1]
  have h2 : hasOid c.nextId (("_id", Value.vOid c.nextId) :: d) = true := by
    simp [hasOid, dget]
  simp [h2]

theorem update_one_nomatch (oid : Nat) (u : Doc) :
    ∀ l : List Doc, (∀ d ∈ l, hasOid oid d = false) → update_one oid u l = l := by
  intro l
  induction l with
  | nil => intro _; rfl
  | cons d rest ih =>
      intro h
      rw [update_one]
      rw [h d (by simp)]
      simp only [Bool.false_eq_true, if_false]
      rw [ih (fun x hx => h x (by simp [hx]))]

theorem update_one_skip_front (oid : Nat) (u : Doc) (pre rest : List Doc)
    (h : ∀ d ∈ pre, hasOid oid d = false) :
    update_one oid u (pre ++ rest) = pre ++ update_one oid u rest := by
  induction pre with
  | nil => rfl
  | cons d pre ih =>
      simp only [List.cons_append, update_one, h d (by simp), Bool.false_eq_true, if_false,
        List.cons.injEq, true_and]
      exact ih (fun x hx => h x (by simp [hx]))

theorem find?_prefix_none {p : Doc → Bool} (pre rest : List Doc)
    (h : ∀ d ∈ pre, p d = false) :
    (pre ++ rest).find? p = rest.find? p := by
  rw [List.find?_append]
  have : pre.find? p = none := by
    rw [List.find?_eq_none]; intro x hx; simp [h x hx]
  rw [this]
  rfl

theorem sumCounts_bump (m : List (String × Nat)) (k : String) :
    sumCounts (bump m k) = sumCounts m + 1 := by
  induction m with
  | nil => rfl
  | cons kv rest ih =>
      obtain ⟨k', v⟩ := kv
      by_cases h : k' = k
      · simp [bump, h, sumCounts]
        omega
      · simp only [bump, if_neg h]
        simp only [sumCounts, List.map_cons, List.sum_cons] at ih ⊢
        omega

theorem sumCounts_foldl_bump (f : Doc → String) (l : List Doc) :
    ∀ m : List (String × Nat),
      sumCounts (l.foldl (fun acc a => bump acc (f a)) m) = sumCounts m + l.length := by
  induction l with
  | nil => intro m; simp
  | cons d rest ih =>
      intro m
      simp only [List.foldl_cons, List.length_cons, ih (bump m (f d)), sumCounts_bump]
      omega

theorem docKey_serialize_ne (d : Doc) (f : String) (h1 : f ≠ "_id") (h2 : f ≠ "id") :
    docKey f (serialize_document d) = docKey f d := by
  unfold docKey
  rw [serialize_dget_ne d f h1 h2]

theorem dget_serialize_no_internal (d : Doc) : dget (serialize_document d) "_id" = none := by
  rw [serialize_document]
  by_cases he : d.isEmpty
  · rw [if_pos he]
    cases d with
    | nil => rfl
    | cons kv rest => simp [List.isEmpty] at he
  · rw [if_neg he]
    cases hid : dget d "_id" with
    | none => exact hid
    | some i =>
        cases i with
        | vNull => exact dget_dremove_self d "_id"
        | vStr s => rw [dget_dset_ne _ _ _ _ (by decide)]; exact dget_dremove_self d "_id"
        | vNum q => rw [dget_dset_ne _ _ _ _ (by decide)]; exact dget_dremove_self d "_id"
        | vOid n => rw [dget_dset_ne _ _ _ _ (by decide)]; exact dget_dremove_self d "_id"
        | vTime t => rw [dget_dset_ne _ _ _ _ (by decide)]; exact dget_dremove_self d "_id"
        | vDate y m dd => rw [dget_dset_ne _ _ _ _ (by decide)]; exact dget_dremove_self d "_id"
        | vList l => rw [dget_dset_ne _ _ _ _ (by decide)]; exact dget_dremove_self d "_id"

theorem docLe_serialize (f : String) (dir : Int) (h2 : f ≠ "id")
    (a b : Doc) (h : docLe f dir a b) :
    docLe f dir (serialize_document a) (serialize_document b) := by
  by_cases hf : f = "_id"
  · subst hf
    have ka : docKey "_id" (serialize_document a) = valueKey Value.vNull := by
      unfold docKey; rw [dget_serialize_no_internal]; rfl
    have kb : docKey "_id" (serialize_document b) = valueKey Value.vNull := by
      unfold docKey; rw [dget_serialize_no_internal]; rfl
    unfold docLe
    split
    · rw [ka, kb]
    · rw [ka, kb]
  · unfold docLe at h ⊢
    rw [docKey_serialize_ne a f hf h2, docKey_serialize_ne b f hf h2]
    exact h

theorem mem_get_documents {c : Collection} {flt : Doc} {lim : Nat}
    {srt : Option (String × Int)} {d : Doc} (h : d ∈ get_documents c flt lim srt) :
    ∃ s ∈ c.docs, matchesFilter flt s = true ∧ d = serialize_document s := by
  unfold get_documents at h
  rw [List.mem_map] at h
  obtain ⟨s, hs, rfl⟩ := h
  have hs2 : s ∈ c.docs.filter (matchesFilter flt) := by
    by_cases hl : lim ≠ 0
    · rw [if_pos hl] at hs
      cases hsrt : srt with
      | none =>
          rw [hsrt] at hs
          exact (List.take_sublist _ _).mem hs
      | some fd =>
          rw [hsrt] at hs
          have := (List.take_sublist _ _).mem hs
          exact (List.perm_insertionSort (docLe fd.1 fd.2) _).mem_iff.mp this
    · rw [if_neg hl] at hs
      cases hsrt : srt with
      | none => rw [hsrt] at hs; exact hs
      | some fd =>
          rw [hsrt] at hs
          exact (List.perm_insertionSort (docLe fd.1 fd.2) _).mem_iff.mp hs
  rw [List.mem_filter] at hs2
  exact ⟨s, hs2.1, hs2.2, rfl⟩

theorem mem_filter_period (month year : Option Int) (l : List Doc) (d : Doc) :
    (d ∈ (if truthy month || truthy year then l.filter (periodKeep month year) else l)) ↔
      (d ∈ l ∧ (truthy year = true → ((docYearMonth d).1 : Int) = year.getD 0)
            ∧ (truthy month = true → ((docYearMonth d).2 : Int) = month.getD 0)) := by
  by_cases hm : truthy month = true
  · by_cases hy : truthy year = true
    · simp [hm, hy, List.mem_filter, periodKeep]
    · rw [Bool.not_eq_true] at hy
      simp [hm, hy, List.mem_filter, periodKeep]
  · rw [Bool.not_eq_true] at hm
    by_cases hy : truthy year = true
    · simp [hm, hy, List.mem_filter, periodKeep]
    · rw [Bool.not_eq_true] at hy
      simp [hm, hy]

/-! ## Claim theorems -/

/-- C1: for the concrete state with exactly two Activity records dated within
March 2024 (both category `"academics"`) and one Finance record dated March
2024 with income 100.0 and expense 40.0, `monthly_recap` with month 3 and year
2024 returns total_activities = 2, activities_by_category = {"academics": 2},
total_income = 100.0, total_expense = 40.0 and net = 60.0. -/
theorem recap_march_2024_scenario :
    monthly_recap actsState finsState 3 2024 =
      ⟨3, 2024, 2, [("academics", 2)], 100, 40, 60⟩ := by
  have ha : list_activities actsState (some 3) (some 2024) =
      [marActDoc 5 "0", marActDoc 20 "1"] := rfl
  have hf : list_finances finsState (some 3) (some 2024) = [marFinDoc] := rfl
  unfold monthly_recap
  rw [ha, hf]
  simp [bump, docCategory, docAmount, dget, marActDoc, marFinDoc]
  norm_num

/-- C2 (amended): a record is included in `list_activities`/`list_finances`
exactly when it is among the (up to 1000, date-sorted, serialized) loaded
documents and its date satisfies each *truthy* filter — where, by Python
truthiness, a month or year filter of `0` behaves like an absent filter.  In
particular a March-2024 listing only contains records whose date's month is 3,
so an April-2024 activity never appears in a March-2024 recap. -/
theorem list_period_filter_membership (c : Collection) (month year : Option Int) (d : Doc) :
    (d ∈ list_activities c month year ↔
      (d ∈ get_documents c [] 1000 (some ("date", 1))
        ∧ (truthy year = true → ((docYearMonth d).1 : Int) = year.getD 0)
        ∧ (truthy month = true → ((docYearMonth d).2 : Int) = month.getD 0)))
    ∧ (d ∈ list_finances c month year ↔
      (d ∈ get_documents c [] 1000 (some ("date", 1))
        ∧ (truthy year = true → ((docYearMonth d).1 : Int) = year.getD 0)
        ∧ (truthy month = true → ((docYearMonth d).2 : Int) = month.getD 0)))
    ∧ (∀ d2 ∈ list_activities c (some 3) (some 2024), (docYearMonth d2).2 = 3) := by
  refine ⟨?_, ?_, ?_⟩
  · unfold list_activities
    exact mem_filter_period month year _ d
  · unfold list_finances
    exact mem_filter_period month year _ d
  · intro d2 hd2
    unfold list_activities at hd2
    have h := (mem_filter_period (some 3) (some 2024) _ d2).mp hd2
    have hmon : ((docYearMonth d2).2 : Int) = 3 := h.2.2 (by decide)
    omega

/-- C2 (counterexample): with a month filter of `0` (which is *present*, and
matches no real date month) the claim demands an empty result, but Python
truthiness (`not month`) treats `0` as absent: the April-2024 record is
returned even though its month 4 differs from the filter value 0. -/
theorem list_month_zero_filter_counterexample :
    (some (0 : Int) ≠ (none : Option Int))
    ∧ aprDoc ∈ list_activities aprState (some 0) none
    ∧ ((docYearMonth aprDoc).2 : Int) ≠ 0 := by
  refine ⟨by decide, ?_, by decide⟩
  have h : list_activities aprState (some 0) none = [aprDoc] := rfl
  rw [h]
  exact List.Mem.head _

/-- C10: the recap is internally consistent for every state and period:
`total_activities` is the sum of the per-category counts (each filtered
activity lands in exactly one bucket), `net = total_income - total_expense`,
and when no records match the period every aggregate is zero and the
histogram is empty. -/
theorem recap_internal_consistency (cAct cFin : Collection) (m y : Int) :
    (monthly_recap cAct cFin m y).total_activities
        = sumCounts (monthly_recap cAct cFin m y).activities_by_category
    ∧ (monthly_recap cAct cFin m y).net
        = (monthly_recap cAct cFin m y).total_income
            - (monthly_recap cAct cFin m y).total_expense
    ∧ (list_activities cAct (some m) (some y) = [] →
        list_finances cFin (some m) (some y) = [] →
        monthly_recap cAct cFin m y = ⟨m, y, 0, [], 0, 0, 0⟩) := by
  refine ⟨?_, rfl, ?_⟩
  · show (list_activities cAct (some m) (some y)).length =
      sumCounts ((list_activities cAct (some m) (some y)).foldl
        (fun acc a => bump acc (docCategory a)) [])
    rw [sumCounts_foldl_bump docCategory]
    simp [sumCounts]
  · intro ha hf
    unfold monthly_recap
    rw [ha, hf]
    simp

/-- C10 (witness): at a concrete empty state the recap is the all-zero record
with an empty histogram. -/
theorem recap_internal_consistency_witness :
    monthly_recap ⟨[], 0⟩ ⟨[], 0⟩ 5 2025 = ⟨5, 2025, 0, [], 0, 0, 0⟩ :=
  (recap_internal_consistency ⟨[], 0⟩ ⟨[], 0⟩ 5 2025).2.2 rfl rfl

/-- C2 (witness): in the concrete March-2024 state, the first March record is
included in the March-2024 listing. -/
theorem list_period_filter_membership_witness :
    marActDoc 5 "0" ∈ list_activities actsState (some 3) (some 2024) :=
  ((list_period_filter_membership actsState (some 3) (some 2024) (marActDoc 5 "0")).1).mpr
    ⟨by
      have h : get_documents actsState [] 1000 (some ("date", 1)) =
          [marActDoc 5 "0", marActDoc 20 "1"] := rfl
      rw [h]
      exact List.Mem.head _,
     fun _ => by decide, fun _ => by decide⟩

/-- C3: creating a valid Activity payload stores it with both timestamps set to
the same creation instant, returns its serialized form (payload fields, the two
equal timestamps, and the string `id`), and a subsequent `get` by the returned
id yields the same record. -/
theorem create_then_get_roundtrip (c : Collection) (t : Nat) (p : ActivityPayload)
    (hwf : c.wf) (hv : validActivity p = true) :
    create_activity c t p =
      (some (activityOut p t t (oidStr c.nextId)),
        ⟨c.docs ++ [storedActivity c.nextId p t t], c.nextId + 1⟩)
    ∧ get_document ⟨c.docs ++ [storedActivity c.nextId p t t], c.nextId + 1⟩ (oidStr c.nextId)
        = .ok (some (activityOut p t t (oidStr c.nextId)))
    ∧ dget (activityOut p t t (oidStr c.nextId)) "created_at" = some (Value.vTime t)
    ∧ dget (activityOut p t t (oidStr c.nextId)) "updated_at" = some (Value.vTime t)
    ∧ dget (activityOut p t t (oidStr c.nextId)) "id" = some (Value.vStr (oidStr c.nextId))
    ∧ dget (activityOut p t t (oidStr c.nextId)) "name" = some (Value.vStr p.name)
    ∧ dget (activityOut p t t (oidStr c.nextId)) "category" = some (Value.vStr p.category) := by
  have h1 : find_one ⟨c.docs ++ [storedActivity c.nextId p t t], c.nextId + 1⟩ c.nextId
      = some (storedActivity c.nextId p t t) :=
    find_one_insert c hwf
      (dsetAll (activityDict p) [("created_at", Value.vTime t), ("updated_at", Value.vTime t)])
  refine ⟨?_, ?_, rfl, rfl, rfl, rfl, rfl⟩
  · rw [create_activity, if_pos hv]
    show ((find_one ⟨c.docs ++ [storedActivity c.nextId p t t], c.nextId + 1⟩ c.nextId).map
        serialize_document,
      (⟨c.docs ++ [storedActivity c.nextId p t t], c.nextId + 1⟩ : Collection)) = _
    rw [h1]
    rfl
  · rw [get_document, parseOid_oidStr]
    show Except.ok ((find_one ⟨c.docs ++ [storedActivity c.nextId p t t], c.nextId + 1⟩
        c.nextId).map serialize_document) = _
    rw [h1]
    rfl

/-- C3 (witness): creating the March-5 payload in the empty store and reading
it back by the returned id yields the same serialized record. -/
theorem create_then_get_roundtrip_witness :
    get_document ⟨[storedActivity 0 (marAct 5) 0 0], 1⟩ (oidStr 0)
      = .ok (some (activityOut (marAct 5) 0 0 (oidStr 0))) :=
  (create_then_get_roundtrip ⟨[], 0⟩ 0 (marAct 5) (fun d hd => absurd hd (List.not_mem_nil d))
    (by decide)).2.1

/-- C4: updating an existing activity record with a valid payload replaces all
the data fields with the new payload and, among the metadata fields, changes
only `updated_at` (to the update instant, strictly later than `created_at`
whenever the clock has advanced); `id` and `created_at` are unchanged, and all
other stored documents are untouched. -/
theorem update_replaces_data_refreshes_updated_at
    (pre post : List Doc) (nid oid t0 t1 t2 : Nat) (p0 p : ActivityPayload)
    (hpre : ∀ d ∈ pre, hasOid oid d = false)
    (hv : validActivity p = true) (ht : t0 < t2) :
    update_activity ⟨pre ++ storedActivity oid p0 t0 t1 :: post, nid⟩ t2 (oidStr oid) p
        = .ok (some (activityOut p t0 t2 (oidStr oid)),
            ⟨pre ++ storedActivity oid p t0 t2 :: post, nid⟩)
    ∧ dget (activityOut p t0 t2 (oidStr oid)) "created_at" = some (Value.vTime t0)
    ∧ dget (activityOut p t0 t2 (oidStr oid)) "updated_at" = some (Value.vTime t2)
    ∧ dget (activityOut p t0 t2 (oidStr oid)) "id" = some (Value.vStr (oidStr oid))
    ∧ dget (activityOut p t0 t2 (oidStr oid)) "name" = some (Value.vStr p.name)
    ∧ t0 < t2 := by
  have hmatch : hasOid oid (storedActivity oid p0 t0 t1) = true := by
    simp [hasOid, storedActivity, dget]
  refine ⟨?_, rfl, rfl, rfl, rfl, ht⟩
  rw [update_activity, if_pos hv, update_document, parseOid_oidStr]
  have h2 : update_one oid (dsetAll (activityDict p) [("updated_at", Value.vTime t2)])
      (pre ++ storedActivity oid p0 t0 t1 :: post)
      = pre ++ storedActivity oid p t0 t2 :: post := by
    rw [update_one_skip_front oid _ pre _ hpre, update_one, if_pos hmatch]
    rfl
  show Except.ok ((find_one ⟨update_one oid
      (dsetAll (activityDict p) [("updated_at", Value.vTime t2)])
      (pre ++ storedActivity oid p0 t0 t1 :: post), nid⟩ oid).map serialize_document,
      (⟨update_one oid (dsetAll (activityDict p) [("updated_at", Value.vTime t2)])
        (pre ++ storedActivity oid p0 t0 t1 :: post), nid⟩ : Collection)) = _
  rw [h2]
  have h3 : find_one ⟨pre ++ storedActivity oid p t0 t2 :: post, nid⟩ oid
      = some (storedActivity oid p t0 t2) := by
    unfold find_one
    rw [find?_prefix_none pre _ hpre, List.find?]
    have : hasOid oid (storedActivity oid p t0 t2) = true := by
      simp [hasOid, storedActivity, dget]
    rw [this]
  rw [h3]
  rfl

/-- C4 (witness): updating the single stored record with a new payload at a
later instant returns the record with the new data, the old `created_at`, the
new `updated_at` and the unchanged id. -/
theorem update_replaces_data_refreshes_updated_at_witness :
    update_activity ⟨[storedActivity 0 (marAct 5) 0 0], 1⟩ 1 (oidStr 0) (marAct 20)
        = .ok (some (activityOut (marAct 20) 0 1 (oidStr 0)),
            ⟨[storedActivity 0 (marAct 20) 0 1], 1⟩) :=
  (update_replaces_data_refreshes_updated_at [] [] 1 0 0 0 1 (marAct 5) (marAct 20)
    (fun d hd => absurd hd (List.not_mem_nil d)) (by decide) (by decide)).1

/-- C6: updating an id that matches no stored document is a silent no-op: no
error is raised, the collection is unchanged, and the operation returns an
absent (`None`) document. -/
theorem update_nonexistent_id_noop (c : Collection) (t : Nat) (id : String) (u : Doc)
    (oid : Nat) (hp : parseOid id = some oid)
    (hno : ∀ d ∈ c.docs, hasOid oid d = false) :
    update_document c t id u = .ok (none, c) := by
  rw [update_document, hp]
  have h1 : update_one oid (dsetAll u [("updated_at", Value.vTime t)]) c.docs = c.docs :=
    update_one_nomatch _ _ _ hno
  show Except.ok ((find_one ⟨update_one oid (dsetAll u [("updated_at", Value.vTime t)])
      c.docs, c.nextId⟩ oid).map serialize_document,
    (⟨update_one oid (dsetAll u [("updated_at", Value.vTime t)]) c.docs, c.nextId⟩
      : Collection)) = _
  rw [h1]
  have h2 : find_one ⟨c.docs, c.nextId⟩ oid = none := find_one_eq_none hno
  rw [h2]
  rfl

/-- C6 (witness): updating id "5" in the two-document March state leaves the
store untouched and returns no document, without error. -/
theorem update_nonexistent_id_noop_witness :
    update_document actsState 7 "5" [("name", Value.vStr "z")] = .ok (none, actsState) :=
  update_nonexistent_id_noop actsState 7 "5" [("name", Value.vStr "z")] 5 rfl (by decide)

/-- C5 (amended): both download not-found conditions — no File record for the
id, and a record whose stored path is absent from disk — are surfaced as a
client error with the same status code 404, but with *different* detail
messages ("File not found" vs "File missing on disk"). -/
theorem file_download_not_found_behavior
    (c c2 : Collection) (fs fs2 : List String) (fid fid2 : String)
    (doc : Doc) (path : String)
    (h1 : get_document c fid = .ok none)
    (h2 : get_document c2 fid2 = .ok (some doc))
    (h3 : dget doc "url" = some (Value.vStr path))
    (h4 : fs2.contains path = false) :
    get_file c fs fid = .error (404, "File not found")
    ∧ get_file c2 fs2 fid2 = .error (404, "File missing on disk") := by
  constructor
  · unfold get_file
    rw [h1]
  · unfold get_file
    rw [h2]
    show (match dget doc "url" with
      | some (Value.vStr p) =>
          if fs2.contains p = true then Except.ok (p, docContentType doc)
          else Except.error (404, "File missing on disk")
      | _ => Except.error (500, "TypeError")) = _
    rw [h3]
    show (if fs2.contains path = true then Except.ok (path, docContentType doc)
        else Except.error (404, "File missing on disk")) = _
    rw [h4]
    simp

/-- C5 (witness): at the concrete states the two conditions yield exactly the
two 404 errors. -/
theorem file_download_not_found_behavior_witness :
    get_file ⟨[], 0⟩ [] "5" = .error (404, "File not found")
    ∧ get_file fileState [] "0" = .error (404, "File missing on disk") :=
  file_download_not_found_behavior ⟨[], 0⟩ fileState [] [] "5" "0" fileDoc
    "/tmp/uploads/x" rfl rfl rfl rfl

/-- C5 (counterexample): the two not-found conditions share the status code 404
but their messages are distinct, contradicting "no distinction in message". -/
theorem file_download_distinct_messages_counterexample :
    get_file ⟨[], 0⟩ [] "5" = .error (404, "File not found")
    ∧ get_file fileState [] "0" = .error (404, "File missing on disk")
    ∧ ("File not found" : String) ≠ "File missing on disk" :=
  ⟨rfl, rfl, by decide⟩

theorem matchAlt_iff (a s : String) :
    (s.data.take a.data.length == a.data && dollarTail (s.data.drop a.data.length)) = true
      ↔ (s = a ∨ s = a ++ "\n") := by
  rw [Bool.and_eq_true, beq_iff_eq]
  unfold dollarTail
  rw [Bool.or_eq_true, beq_iff_eq, beq_iff_eq]
  constructor
  · rintro ⟨h1, h2 | h2⟩
    · left
      apply String.ext
      conv_lhs => rw [← List.take_append_drop a.data.length s.data]
      rw [h1, h2, List.append_nil]
    · right
      apply String.ext
      conv_lhs => rw [← List.take_append_drop a.data.length s.data]
      rw [h1, h2, String.data_append]
  · rintro (rfl | rfl)
    · exact ⟨by rw [List.take_length], Or.inl (by rw [List.drop_length])⟩
    · constructor
      · rw [String.data_append]
        exact List.take_left _ _
      · right
        rw [String.data_append, List.drop_left]

theorem reMatch_iff (alts : List String) (s : String) :
    reMatchLiteralAlts alts s = true ↔ (s ∈ alts ∨ ∃ a ∈ alts, s = a ++ "\n") := by
  unfold reMatchLiteralAlts
  rw [List.any_eq_true]
  constructor
  · rintro ⟨a, ha, hm⟩
    rcases (matchAlt_iff a s).mp hm with h | h
    · exact Or.inl (h ▸ ha)
    · exact Or.inr ⟨a, ha, h⟩
  · rintro (hs | ⟨a, ha, rfl⟩)
    · exact ⟨s, hs, (matchAlt_iff s s).mpr (Or.inl rfl)⟩
    · exact ⟨a, ha, (matchAlt_iff a _).mpr (Or.inr rfl)⟩

/-- C7 (amended): the category validation regex (under Python `re.match`, whose
`$` also matches just before one trailing newline) accepts exactly the six
enumerated values and the six values followed by a single trailing newline;
an invalid payload is rejected before any storage call; `"hobbies"` is always
rejected, and a payload with category `"academics"` passes validation. -/
theorem category_validation_amended :
    (∀ s, reMatchLiteralAlts activityCategories s = true ↔
        (s ∈ activityCategories ∨ ∃ a ∈ activityCategories, s = a ++ "\n"))
    ∧ (∀ (c : Collection) (t : Nat) (p : ActivityPayload),
        validActivity p = false → create_activity c t p = (none, c))
    ∧ (∀ p : ActivityPayload, p.category = "hobbies" → validActivity p = false)
    ∧ validActivity ⟨⟨2024, 3, 5⟩, "study", "academics", 1, none, none, none⟩ = true := by
  refine ⟨fun s => reMatch_iff activityCategories s, ?_, ?_, rfl⟩
  · intro c t p hv
    simp [create_activity, hv]
  · intro p hcat
    unfold validActivity
    rw [hcat]
    have h : reMatchLiteralAlts activityCategories "hobbies" = false := by decide
    rw [h]
    simp

/-- C7 (witness): a concrete `"hobbies"` payload is rejected by the endpoint
with no storage call. -/
theorem category_validation_amended_witness :
    create_activity ⟨[], 0⟩ 0 ⟨⟨2024, 3, 5⟩, "study", "hobbies", 1, none, none, none⟩
      = (none, ⟨[], 0⟩) :=
  category_validation_amended.2.1 ⟨[], 0⟩ 0 _
    (category_validation_amended.2.2.1 _ rfl)

/-- C7 (counterexample): the payload whose category is `"academics\n"` passes
validation although its category is not one of the six enumerated values —
the acceptance is not *exactly* the six values. -/
theorem category_trailing_newline_counterexample :
    validActivity ⟨⟨2024, 3, 5⟩, "study", "academics\n", 1, none, none, none⟩ = true
    ∧ "academics\n" ∉ activityCategories :=
  ⟨rfl, by decide⟩

/-- C8 (amended): `get_documents` returns at most `limit` matching documents
whenever `limit` is positive (by Python truthiness, `limit = 0` applies *no*
cap), with the limit defaulting to 1000 and the filter to `{}`; every returned
document is the normalization of a stored document matching the filter; and
when a sort key other than `id` is given the result is in that sort order
(sorting happens before normalization, which rewrites the `id` field). -/
theorem get_documents_contract (c : Collection) (flt : Doc) (lim : Nat)
    (srt : Option (String × Int)) :
    (0 < lim → (get_documents c flt lim srt).length ≤ lim)
    ∧ (∀ d ∈ get_documents c flt lim srt,
        ∃ s ∈ c.docs, matchesFilter flt s = true ∧ d = serialize_document s)
    ∧ get_documents c flt = get_documents c flt 1000 none
    ∧ (∀ (f : String) (dir : Int), srt = some (f, dir) → f ≠ "id" →
        (get_documents c flt lim srt).Sorted (docLe f dir)) := by
  refine ⟨?_, fun d hd => mem_get_documents hd, rfl, ?_⟩
  · intro hlim
    unfold get_documents
    rw [List.length_map, if_pos (by omega : lim ≠ 0), List.length_take]
    exact min_le_left _ _
  · intro f dir hsrt h2
    subst hsrt
    have hsorted : (List.insertionSort (docLe f dir)
        (c.docs.filter (matchesFilter flt))).Sorted (docLe f dir) :=
      List.sorted_insertionSort _ _
    have hstep : ∀ a b : Doc, docLe f dir a b →
        docLe f dir (serialize_document a) (serialize_document b) :=
      docLe_serialize f dir h2
    show List.Sorted (docLe f dir)
      ((if lim ≠ 0 then
          (List.insertionSort (docLe f dir) (c.docs.filter (matchesFilter flt))).take lim
        else
          List.insertionSort (docLe f dir) (c.docs.filter (matchesFilter flt))).map
        serialize_document)
    by_cases hl : lim ≠ 0
    · rw [if_pos hl]
      exact List.Pairwise.map _ hstep
        (List.Pairwise.sublist (List.take_sublist _ _) hsorted)
    · rw [if_neg hl]
      exact List.Pairwise.map _ hstep hsorted

/-- C8 (witness): with a positive limit the concrete one-record collection
returns at most that many documents. -/
theorem get_documents_contract_witness :
    (get_documents aprState [] 5 (some ("date", 1))).length ≤ 5 :=
  (get_documents_contract aprState [] 5 (some ("date", 1))).1 (by omega)

/-- C8 (counterexample): two parts of the claim fail.  With `limit = 0` the
shim returns *all* documents (`if limit:` skips the cap), so "at most `limit`"
fails: one document is returned where the claim allows at most zero.  And with
`sort=[("id", 1)]` the result is *not* in the requested sort order: stored
documents carry no `id` field, so they all tie during the sort and keep
insertion order, after which normalization writes id strings ("9" before "10")
that are out of order. -/
theorem get_documents_limit_and_sort_counterexample :
    ((get_documents aprState [] 0 none).length = 1
      ∧ ¬ ((get_documents aprState [] 0 none).length ≤ 0))
    ∧ ¬ (get_documents tieState [] 1000 (some ("id", 1))).Sorted (docLe "id" 1) := by
  have h : (get_documents aprState [] 0 none).length = 1 := rfl
  refine ⟨⟨h, by rw [h]; omega⟩, ?_⟩
  intro hs
  have hout : get_documents tieState [] 1000 (some ("id", 1)) = [tieDoc9, tieDoc10] := rfl
  rw [hout] at hs
  have h2 : docLe "id" 1 tieDoc9 tieDoc10 :=
    (List.pairwise_cons.mp hs).1 tieDoc10 (List.Mem.head _)
  exact absurd h2 (by decide)

/-- C9: every document handed back to a caller by the persistence shim —
by create, update, get, or list — carries its internal identifier only as the
string field `id` and never contains the internal `_id` field. -/
theorem serialized_documents_expose_only_id (c : Collection) (t : Nat) (data : Doc)
    (id : String) (u : Doc) (flt : Doc) (lim : Nat) (srt : Option (String × Int)) :
    (∀ d, (create_document c t data).1 = some d → exposesIdOnly d)
    ∧ (∀ d c2, update_document c t id u = .ok (some d, c2) → exposesIdOnly d)
    ∧ (∀ d, get_document c id = .ok (some d) → exposesIdOnly d)
    ∧ (c.wf → ∀ d ∈ get_documents c flt lim srt, exposesIdOnly d) := by
  refine ⟨?_, ?_, ?_, ?_⟩
  · intro d hd
    have hd2 : (find_one ⟨c.docs ++ [("_id", Value.vOid c.nextId) ::
        dsetAll data [("created_at", Value.vTime t), ("updated_at", Value.vTime t)]],
        c.nextId + 1⟩ c.nextId).map serialize_document = some d := hd
    cases hfo : find_one ⟨c.docs ++ [("_id", Value.vOid c.nextId) ::
        dsetAll data [("created_at", Value.vTime t), ("updated_at", Value.vTime t)]],
        c.nextId + 1⟩ c.nextId with
    | none => rw [hfo] at hd2; simp at hd2
    | some x =>
        rw [hfo] at hd2
        have hx : serialize_document x = d := by simpa using hd2
        have hp : hasOid c.nextId x = true := List.find?_some hfo
        exact hx ▸ exposesIdOnly_serialize (dget_of_hasOid hp)
  · intro d c2 hd
    cases hp : parseOid id with
    | none => rw [update_document, hp] at hd; simp at hd
    | some oid =>
        rw [update_document, hp] at hd
        have hd2 : (find_one ⟨update_one oid (dsetAll u [("updated_at", Value.vTime t)])
            c.docs, c.nextId⟩ oid).map serialize_document = some d := by
          have := hd
          simp only [Except.ok.injEq, Prod.mk.injEq] at this
          exact this.1
        cases hfo : find_one ⟨update_one oid (dsetAll u [("updated_at", Value.vTime t)])
            c.docs, c.nextId⟩ oid with
        | none => rw [hfo] at hd2; simp at hd2
        | some x =>
            rw [hfo] at hd2
            have hx : serialize_document x = d := by simpa using hd2
            have hpx : hasOid oid x = true := List.find?_some hfo
            exact hx ▸ exposesIdOnly_serialize (dget_of_hasOid hpx)
  · intro d hd
    cases hp : parseOid id with
    | none => rw [get_document, hp] at hd; simp at hd
    | some oid =>
        rw [get_document, hp] at hd
        have hd2 : (find_one c oid).map serialize_document = some d := by
          have := hd
          simp only [Except.ok.injEq] at this
          exact this
        cases hfo : find_one c oid with
        | none => rw [hfo] at hd2; simp at hd2
        | some x =>
            rw [hfo] at hd2
            have hx : serialize_document x = d := by simpa using hd2
            have hpx : hasOid oid x = true := List.find?_some hfo
            exact hx ▸ exposesIdOnly_serialize (dget_of_hasOid hpx)
  · intro hwf d hd
    obtain ⟨s, hs, _, rfl⟩ := mem_get_documents hd
    obtain ⟨n, hn, _⟩ := hwf s hs
    exact exposesIdOnly_serialize hn

/-- C9 (witness): the document returned by a concrete create exposes only the
string id. -/
theorem serialized_documents_expose_only_id_witness :
    exposesIdOnly (activityOut (marAct 5) 0 0 (oidStr 0)) :=
  (serialized_documents_expose_only_id ⟨[], 0⟩ 0 (activityDict (marAct 5)) "0" [] [] 1000
    none).1 (activityOut (marAct 5) 0 0 (oidStr 0)) rfl
